import Mathlib

/-!
Verification of the announcement-parsing subsystem of `speedhive-tools`.

This file gives a shallow embedding, in Lean 4, of the parsing, detection,
validation and lap-time-normalization code of the repository:

* `speedhive_tools/client.py` — the regex cascade of
  `SpeedHiveClient.parse_track_record_announcement`, the detection gate
  `find_track_record_announcements`, the validator `is_record_valid`, and
  the lap-time normalizer `_normalize_lap_time_str`;
* `speedhive_tools/utils.py` — `parse_lap_time_to_seconds`,
  `format_seconds_to_lap_time`;
* `speedhive_tools/utils/track_records.py` — `parse_track_record_text`;
* `speedhive_tools/utils/common.py` — `parse_time_value`.

Python's `re` engine is embedded by a small backtracking matcher over a
regular-expression syntax tree (`RE`).  Each compiled pattern of the source
is transcribed into that syntax, construct by construct, preserving
alternation order, greediness/laziness, capture-group numbering, word
boundaries and case-insensitivity; the matcher realizes the standard
leftmost, backtracking search order that CPython's `re` uses.  The `$`
anchor is embedded as end-of-input: every subject string the source feeds
to a `$`-anchored pattern has been whitespace-normalized (no newline), for
which Python's `$` coincides with end-of-input.  Fallible Python code is
embedded in `Except`: an expression that raises is an `.error` value.

Numbers: lap times are handled exactly.  Seconds values are embedded as
exact decimals (`Dec`, a mantissa over a power of ten); the float
arithmetic of the source (values that are integral multiples of 1/1000,
far below 2^52) is exact up to the final 3-decimal rounding, which
recovers the same digits, so the decimal model agrees with the Python
computation on every value reachable from lap-time text.
-/

set_option maxRecDepth 2000000
set_option linter.unusedVariables false

namespace Speedhive

/-! ### Python string primitives (ASCII fragment, as used by the subject texts) -/

/-- Python `\s` (ASCII range): space, tab, newline, carriage return,
form feed, vertical tab. -/
def pyIsSpace (c : Char) : Bool :=
  c = ' ' || c = '\t' || c = '\n' || c = '\x0d' || c = '\x0c' || c = '\x0b'

/-- Python `\d` (ASCII). -/
def pyIsDigit (c : Char) : Bool := '0' ≤ c && c ≤ '9'

/-- Python `\w` (ASCII fragment): letters, digits, underscore. -/
def pyIsWord (c : Char) : Bool :=
  ('A' ≤ c && c ≤ 'Z') || ('a' ≤ c && c ≤ 'z') || pyIsDigit c || c = '_'

/-- ASCII lower-casing, the case folding Python's `re.IGNORECASE` applies to
the ASCII subject texts at hand. -/
def asciiLower (c : Char) : Char :=
  if 'A' ≤ c && c ≤ 'Z' then Char.ofNat (c.toNat + 32) else c

/-- Python `str.strip()` on a character list. -/
def pyStripL (cs : List Char) : List Char :=
  ((cs.dropWhile pyIsSpace).reverse.dropWhile pyIsSpace).reverse

/-- Python `str.strip()`. -/
def pyStrip (s : String) : String := ⟨pyStripL s.data⟩

/-- Helper for `squeezeWsL`: `inRun` records whether the previous character
belonged to a whitespace run already replaced by a space. -/
def squeezeWsAux : Bool → List Char → List Char
  | _, [] => []
  | inRun, c :: cs =>
    if pyIsSpace c then
      if inRun then squeezeWsAux true cs else ' ' :: squeezeWsAux true cs
    else c :: squeezeWsAux false cs

/-- `re.sub(r"\s+", " ", ·)`: replace each maximal whitespace run by one space. -/
def squeezeWsL (cs : List Char) : List Char := squeezeWsAux false cs

/-- `re.sub(r"\s+", " ", text).strip()`, the whitespace normalization applied
to announcement text at the top of `parse_track_record_announcement`. -/
def normalizeWs (s : String) : String := ⟨pyStripL (squeezeWsL s.data)⟩

/-- Case-sensitive substring test (Python's `in` on `str`). -/
def listHasSub (needle hay : List Char) : Bool :=
  match hay with
  | [] => needle.isEmpty
  | _ :: t => (needle.isPrefixOf hay) || listHasSub needle t

def strHasSub (needle hay : String) : Bool := listHasSub needle.data hay.data

/-- Python string lower-casing (ASCII fragment). -/
def strLower (s : String) : String := ⟨s.data.map asciiLower⟩

end Speedhive

namespace Speedhive

/-! ### A small backtracking regex engine

Embeds the fragment of Python `re` used by the source: character classes,
concatenation, ordered alternation, greedy and lazy repetition, capturing
groups, word boundaries and the end anchor.  The matcher is written in
continuation-passing style and explores alternatives in exactly the order
CPython's backtracking engine does, so the first solution found (and the
capture spans it records) agree with `re.search` / `re.fullmatch`. -/

/-- Regex syntax tree. -/
inductive RE where
  | eps : RE
  | cls (p : Char → Bool) : RE
  | seq (a b : RE) : RE
  | alt (a b : RE) : RE
  | grp (n : Nat) (a : RE) : RE
  | star (lazy : Bool) (a : RE) : RE
  | wordB : RE
  | endA : RE

/-- Capture list: group number with (start, stop) positions; the most recent
entry for a group is its value, unmentioned groups are unset (`None`). -/
abbrev Caps := List (Nat × Nat × Nat)

/-- Python `\b`: positions where exactly one neighbour is a word character. -/
def atWordBoundary (inp : List Char) (pos : Nat) : Bool :=
  let pre := decide (0 < pos) && pyIsWord (inp.getD (pos - 1) ' ')
  let post := pyIsWord (inp.getD pos ' ')
  pre != post

/-- The backtracking matcher.  `fuel` bounds the recursion depth (every
recursive call decrements it); with the generous bound used below it never
runs out on the subject strings of this development, and no theorem depends
on the engine's internals — concrete matches are obtained by evaluation. -/
def reRun (inp : List Char) :
    Nat → RE → Nat → Caps → (Nat → Caps → Option (Nat × Caps)) → Option (Nat × Caps)
  | 0, _, _, _, _ => none
  | fuel + 1, re, pos, caps, k =>
    match re with
    | .eps => k pos caps
    | .cls p =>
      match inp.getD pos '\n', decide (pos < inp.length) with
      | c, true => if p c then k (pos + 1) caps else none
      | _, false => none
    | .seq a b => reRun inp fuel a pos caps fun p c => reRun inp fuel b p c k
    | .alt a b =>
      match reRun inp fuel a pos caps k with
      | some r => some r
      | none => reRun inp fuel b pos caps k
    | .grp n a => reRun inp fuel a pos caps fun p c => k p ((n, pos, p) :: c)
    | .star lz a =>
      if lz then
        match k pos caps with
        | some r => some r
        | none =>
          reRun inp fuel a pos caps fun p c =>
            if pos < p then reRun inp fuel (.star true a) p c k else none
      else
        match reRun inp fuel a pos caps
            (fun p c => if pos < p then reRun inp fuel (.star false a) p c k else none) with
        | some r => some r
        | none => k pos caps
    | .wordB => if atWordBoundary inp pos then k pos caps else none
    | .endA => if pos = inp.length then k pos caps else none

/-- Recursion-depth budget for the matcher. -/
def reFuel (inp : List Char) : Nat := 1000 * (inp.length + 2)

/-- A match: span `[start, stop)` plus the captures recorded on the
successful path. -/
structure RMatch where
  start : Nat
  stop : Nat
  caps : Caps
deriving DecidableEq, Repr

/-- Try to match `re` at position `pos` (like `re.match` at an offset). -/
def reMatchAt (re : RE) (inp : List Char) (pos : Nat) : Option RMatch :=
  match reRun inp (reFuel inp) re pos [] (fun e c => some (e, c)) with
  | some (e, c) => some ⟨pos, e, c⟩
  | none => none

/-- `re.search`: try positions left to right (fuel = number of positions
left to try, so the recursion is structural and kernel-reducible). -/
def reSearchAux (re : RE) (inp : List Char) : Nat → Nat → Option RMatch
  | 0, _ => none
  | fuel + 1, pos =>
    match reMatchAt re inp pos with
    | some m => some m
    | none => if pos < inp.length then reSearchAux re inp fuel (pos + 1) else none

def reSearch (re : RE) (inp : List Char) : Option RMatch :=
  reSearchAux re inp (inp.length + 1) 0

/-- `re.fullmatch`: a match at 0 that consumes the whole input. -/
def reFullmatch (re : RE) (inp : List Char) : Option RMatch :=
  match reRun inp (reFuel inp) re 0 []
      (fun e c => if e = inp.length then some (e, c) else none) with
  | some (e, c) => some ⟨0, e, c⟩
  | none => none

/-- Number of capturing groups of a pattern (`re.Pattern.groups`). -/
def reGroups : RE → Nat
  | .eps | .cls _ | .wordB | .endA => 0
  | .seq a b | .alt a b => reGroups a + reGroups b
  | .grp _ a => reGroups a + 1
  | .star _ a => reGroups a

/-- Text of the span `[s, e)` of `inp`. -/
def spanText (inp : List Char) (s e : Nat) : String := ⟨(inp.drop s).take (e - s)⟩

/-- `m.group(n)` for `n ≥ 1` on a pattern that HAS group `n`: the captured
text, or `None` when the group did not participate in the match. -/
def groupVal (inp : List Char) (m : RMatch) (n : Nat) : Option String :=
  match m.caps.find? (fun t => t.1 = n) with
  | some (_, s, e) => some (spanText inp s e)
  | none => none

/-- `m.group(0)`: the full matched text. -/
def group0 (inp : List Char) (m : RMatch) : String := spanText inp m.start m.stop

/-! #### Pattern-building helpers -/

/-- Literal character. -/
def rch (c : Char) : RE := .cls (fun x => x = c)

/-- Literal character under `re.IGNORECASE` (ASCII folding). -/
def rchCI (c : Char) : RE := .cls (fun x => asciiLower x = asciiLower c)

/-- Literal string. -/
def rstr (s : String) : RE := s.data.foldr (fun c r => .seq (rch c) r) .eps

/-- Literal string under `re.IGNORECASE`. -/
def rstrCI (s : String) : RE := s.data.foldr (fun c r => .seq (rchCI c) r) .eps

/-- `x?` (greedy). -/
def ropt (a : RE) : RE := .alt a .eps

/-- `x+` (greedy). -/
def rplus (a : RE) : RE := .seq a (.star false a)

/-- `x+?` (lazy). -/
def rplusLazy (a : RE) : RE := .seq a (.star true a)

/-- `x{1,n}` (greedy), by nesting `x (x (…)?)?`. -/
def rep1N : Nat → RE → RE
  | 0, _ => .eps
  | 1, a => a
  | n + 1, a => .seq a (ropt (rep1N n a))

/-- `x{n}`. -/
def repN : Nat → RE → RE
  | 0, _ => .eps
  | n + 1, a => .seq a (repN n a)

/-- Chain of concatenations. -/
def rcat (l : List RE) : RE := l.foldr .seq .eps

/-- `\s` -/
def rsp : RE := .cls pyIsSpace
/-- `\d` -/
def rdg : RE := .cls pyIsDigit
/-- `.` (no DOTALL: anything but newline). -/
def rany : RE := .cls (fun c => c ≠ '\n')

end Speedhive

namespace Speedhive

/-! ### The compiled patterns of `SpeedHiveClient` (client.py)

Each definition transcribes one `re.compile(...)` of the source.  The
patterns built from `_PREFIX` start with the inline `(?i)` flag of
`_PREFIX.pattern`, which in Python applies to the whole pattern, so those
are transcribed fully case-insensitively; `CLASS_FULL`, `FIND_TIME`,
`_PAREN_CONTENT`, the separator splitter and the date patterns carry no
`(?i)` and are case-sensitive. -/

/-- `[A-Z0-9]` (case-sensitive occurrence, used by `CLASS_FULL`). -/
def isUcAlnum (c : Char) : Bool := ('A' ≤ c && c ≤ 'Z') || pyIsDigit c

/-- `[A-Z0-9]` under `re.IGNORECASE` (inside the cascade patterns). -/
def isUcAlnumCI (c : Char) : Bool := isUcAlnum c || ('a' ≤ c && c ≤ 'z')

/-- `[A-Za-z]`. -/
def isAsciiAlpha (c : Char) : Bool := ('A' ≤ c && c ≤ 'Z') || ('a' ≤ c && c ≤ 'z')

/-- `x{0,n}` (greedy). -/
def rep0N : Nat → RE → RE
  | 0, _ => .eps
  | n + 1, a => ropt (.seq a (rep0N n a))

/-- `_TIME_MMSS = r"\b\d{1,2}:\d{2}\.\d{3}\b"`. -/
def timeTok : RE :=
  rcat [.wordB, rep1N 2 rdg, rch ':', repN 2 rdg, rch '.', repN 3 rdg, .wordB]

/-- `_CLASS_ABBR = r"\b[A-Z0-9]{1,4}(?:-[A-Z0-9]{1,3})?\b"`, as it behaves
inside the case-insensitive cascade patterns. -/
def classTokCI : RE :=
  rcat [.wordB, rep1N 4 (.cls isUcAlnumCI),
    ropt (.seq (rch '-') (rep1N 3 (.cls isUcAlnumCI))), .wordB]

/-- `_CLASS_ABBR` in its case-sensitive occurrence (`CLASS_FULL`). -/
def classTokCS : RE :=
  rcat [.wordB, rep1N 4 (.cls isUcAlnum),
    ropt (.seq (rch '-') (rep1N 3 (.cls isUcAlnum))), .wordB]

/-- `_PAREN_CONTENT = r"\(\([^)]+\)\)"` — note: NO capturing group. -/
def parenContent : RE :=
  rcat [rch '(', rch '(', rplus (.cls (fun c => c ≠ ')')), rch ')', rch ')']

/-- `_SEPS = r"[\-–—•]"`: hyphen, en dash, em dash, bullet. -/
def isSepChar (c : Char) : Bool := c = '-' || c = '–' || c = '—' || c = '•'

def sepTok : RE := .cls isSepChar

/-- `_PREFIX = re.compile(r"(?i)New\s+(?:Track|Class)\s+Record")`. -/
def prefixTok : RE :=
  rcat [rstrCI "New", rplus rsp, .alt (rstrCI "Track") (rstrCI "Class"),
    rplus rsp, rstrCI "Record"]

/-- `\b\d{4}-\d{2}-\d{2}\b` (ISO date token). -/
def dateIsoTok : RE :=
  rcat [.wordB, repN 4 rdg, rch '-', repN 2 rdg, rch '-', repN 2 rdg, .wordB]

/-- `\b[A-Za-z]{3,9} \d{1,2}, \d{4}\b` (month-name date token). -/
def dateMonTok : RE :=
  rcat [.wordB, repN 3 (.cls isAsciiAlpha), rep0N 6 (.cls isAsciiAlpha),
    rch ' ', rep1N 2 rdg, rch ',', rch ' ', repN 4 rdg, .wordB]

/-- `\b\d{1,2}/\d{1,2}/\d{4}\b` (slash date token). -/
def dateSlashTok : RE :=
  rcat [.wordB, rep1N 2 rdg, rch '/', rep1N 2 rdg, rch '/', repN 4 rdg, .wordB]

/-- The date alternation inside `PRIMARY`/`ALTERNATE`, captured as group `n`. -/
def dateAlts (n : Nat) : RE := .grp n (.alt dateIsoTok (.alt dateMonTok dateSlashTok))

/-- `(?:[.!]\s*$|\s*$)` — the common tail of the FOR/BY patterns. -/
def tailEnd : RE :=
  .alt (rcat [.cls (fun c => c = '.' || c = '!'), .star false rsp, .endA])
    (rcat [.star false rsp, .endA])

/-- `RE_FOR_BY_IN`:
`PREFIX\s*\(\s*(TIME)\s*\)\s*for\s+(CLASS)\s+by\s+(.+?)\s+in\s+(.+?)(?:[.!]\s*$|\s*$)`. -/
def RE_FOR_BY_IN : RE :=
  rcat [prefixTok, .star false rsp, rch '(', .star false rsp, .grp 1 timeTok,
    .star false rsp, rch ')', .star false rsp, rstrCI "for", rplus rsp,
    .grp 2 classTokCI, rplus rsp, rstrCI "by", rplus rsp, .grp 3 (rplusLazy rany),
    rplus rsp, rstrCI "in", rplus rsp, .grp 4 (rplusLazy rany), tailEnd]

/-- `RE_FOR_BY`: as above without the `in MARQUE` clause. -/
def RE_FOR_BY : RE :=
  rcat [prefixTok, .star false rsp, rch '(', .star false rsp, .grp 1 timeTok,
    .star false rsp, rch ')', .star false rsp, rstrCI "for", rplus rsp,
    .grp 2 classTokCI, rplus rsp, rstrCI "by", rplus rsp, .grp 3 (rplusLazy rany),
    tailEnd]

/-- `RE_FOR_BY_NOPAREN`: `PREFIX\s*(TIME)\s*for\s+(CLASS)\s+by\s+(.+?)(…)`. -/
def RE_FOR_BY_NOPAREN : RE :=
  rcat [prefixTok, .star false rsp, .grp 1 timeTok, .star false rsp,
    rstrCI "for", rplus rsp, .grp 2 classTokCI, rplus rsp, rstrCI "by",
    rplus rsp, .grp 3 (rplusLazy rany), tailEnd]

/-- `PRIMARY`:
`PREFIX.*?SEP\s*(CLASS)\s*SEP\s*(TIME)\s*SEP\s*(.+?)\s*(?:PAREN)?(?:\s*SEP\s*(DATE))?`.
It has FOUR capturing groups (`_PAREN_CONTENT` captures nothing). -/
def PRIMARY : RE :=
  rcat [prefixTok, .star true rany, sepTok, .star false rsp, .grp 1 classTokCI,
    .star false rsp, sepTok, .star false rsp, .grp 2 timeTok, .star false rsp,
    sepTok, .star false rsp, .grp 3 (rplusLazy rany), .star false rsp,
    ropt parenContent,
    ropt (rcat [.star false rsp, sepTok, .star false rsp, dateAlts 4])]

/-- `ALTERNATE`:
`PREFIX.*?\s*(.+?)\s*(?:PAREN)?\s*SEP\s*(TIME)\s*SEP\s*(CLASS)(?:\s*SEP\s*(DATE))?`.
It has FOUR capturing groups. -/
def ALTERNATE : RE :=
  rcat [prefixTok, .star true rany, .star false rsp, .grp 1 (rplusLazy rany),
    .star false rsp, ropt parenContent, .star false rsp, sepTok, .star false rsp,
    .grp 2 timeTok, .star false rsp, sepTok, .star false rsp, .grp 3 classTokCI,
    ropt (rcat [.star false rsp, sepTok, .star false rsp, dateAlts 4])]

/-- `FIND_TIME = re.compile(_TIME_MMSS)`. -/
def FIND_TIME : RE := timeTok

/-- `CLASS_FULL = re.compile(f"^{_CLASS_ABBR}$")`, used with `.fullmatch`. -/
def CLASS_FULL : RE := .seq classTokCS .endA

/-- The three detection-gate patterns `_TR_PATTERNS` (all `(?i)`). -/
def TR_PATTERNS : List RE :=
  [ rcat [.wordB, rstrCI "New", rplus rsp, rstrCI "Track", rplus rsp, rstrCI "Record", .wordB],
    rcat [.wordB, rstrCI "New", rplus rsp, rstrCI "Class", rplus rsp, rstrCI "Record", .wordB],
    rcat [.wordB, rstrCI "Track", rplus rsp, rstrCI "Record", .wordB] ]

/-- The deny-list patterns `_NEGATION_PATTERNS` (all `(?i)`). -/
def NEGATION_PATTERNS : List RE :=
  [ rcat [.wordB, rstrCI "not", rplus rsp, rstrCI "counted", .wordB],
    rcat [.wordB, rstrCI "unofficial", .wordB],
    rcat [.wordB, rstrCI "exhibition", .wordB],
    rcat [.wordB, rstrCI "not", rplus rsp, rstrCI "recognized", .wordB] ]

/-- Boolean search test. -/
def reTest (re : RE) (s : String) : Bool := (reSearch re s.data).isSome

/-! ### Python exceptions surfaced by the parser -/

/-- The exceptions the parsing code can actually raise. -/
inductive PyExc where
  | indexError : PyExc      -- `m.group(1)` on a pattern without groups
  | attributeError : PyExc  -- `None.strip()`
  | valueError : PyExc      -- `ValueError` (e.g. unparseable lap time)
deriving DecidableEq, Repr

/-- `m.group(n)` with Python's arity check: asking for a group the pattern
does not have raises `IndexError: no such group`. -/
def mGroup (pat : RE) (inp : List Char) (m : RMatch) (n : Nat) :
    Except PyExc (Option String) :=
  if n = 0 then .ok (some (group0 inp m))
  else if n ≤ reGroups pat then .ok (groupVal inp m n)
  else .error .indexError

/-- `m.groups()`: the tuple of all group values, in group order. -/
def mGroups (pat : RE) (inp : List Char) (m : RMatch) : List (Option String) :=
  (List.range (reGroups pat)).map fun i => groupVal inp m (i + 1)

/-! ### `re.sub(r"\[\s*\d+\s*\]\s*", "", …)` — grid-marker removal -/

/-- Match the grid-marker pattern at the head of the list, returning the
remainder after it (pattern: `\[\s*\d+\s*\]\s*`). -/
def gridAt (cs : List Char) : Option (List Char) :=
  match cs with
  | '[' :: r1 =>
    let r2 := r1.dropWhile pyIsSpace
    let digs := r2.takeWhile pyIsDigit
    if digs.isEmpty then none
    else
      match (r2.dropWhile pyIsDigit).dropWhile pyIsSpace with
      | ']' :: r3 => some (r3.dropWhile pyIsSpace)
      | _ => none
  | _ => none

/-- Left-to-right, non-overlapping global substitution by the empty string
(the behaviour of `re.sub` with an empty replacement).  Fuel = input length
suffices: every step consumes at least one character. -/
def stripGridAux : Nat → List Char → List Char
  | 0, cs => cs
  | _, [] => []
  | fuel + 1, c :: cs =>
    match gridAt (c :: cs) with
    | some rest => stripGridAux fuel rest
    | none => c :: stripGridAux fuel cs

/-- `re.sub(r"\[\s*\d+\s*\]\s*", "", s)` as used on driver names. -/
def pySubGrid (s : String) : String := ⟨stripGridAux s.data.length s.data⟩

end Speedhive

namespace Speedhive

/-! ### `datetime.strptime(...).date().isoformat()` for the five formats

`parse_track_record_announcement` converts matched date tokens with
`datetime.strptime(s, fmt).date().isoformat()` for
`fmt ∈ ("%Y-%m-%d", "%b %d, %Y", "%B %d, %Y", "%m/%d/%Y", "%d/%m/%Y")`,
treating `ValueError` as "try the next format".  `strptime` matches `%Y`
as exactly four digits, `%m`/`%d` as one or two digits in range, `%b`/`%B`
as a month name case-insensitively, requires the whole string to be
consumed, and validates the day against the month length. -/

/-- Zero-pad a natural to two digits. -/
def pad2 (n : Nat) : String := if n < 10 then "0" ++ toString n else toString n

/-- Zero-pad a natural to four digits. -/
def pad4 (n : Nat) : String :=
  if n < 10 then "000" ++ toString n
  else if n < 100 then "00" ++ toString n
  else if n < 1000 then "0" ++ toString n
  else toString n

def isLeapYear (y : Nat) : Bool := y % 4 = 0 && (y % 100 ≠ 0 || y % 400 = 0)

def daysInMonth (y m : Nat) : Nat :=
  if m = 2 then (if isLeapYear y then 29 else 28)
  else if m = 4 || m = 6 || m = 9 || m = 11 then 30
  else 31

/-- Digit value of a char list prefix. -/
def digitsVal (cs : List Char) : Nat := cs.foldl (fun a c => 10 * a + (c.toNat - 48)) 0

/-- Take exactly `n` digits. -/
def takeDigitsN (n : Nat) (cs : List Char) : Option (Nat × List Char) :=
  let digs := (cs.take n).takeWhile pyIsDigit
  if digs.length = n then some (digitsVal digs, cs.drop n) else none

/-- `%m` / `%d` style: one or two digits, two preferred, value in `[lo, hi]`.
(`strptime` compiles these to ordered alternations that prefer the two-digit
in-range form and fall back to one digit.) -/
def takeDigits12 (lo hi : Nat) (cs : List Char) : Option (Nat × List Char) :=
  match cs with
  | c1 :: c2 :: rest =>
    if pyIsDigit c1 && pyIsDigit c2 && lo ≤ digitsVal [c1, c2] && digitsVal [c1, c2] ≤ hi then
      some (digitsVal [c1, c2], rest)
    else if pyIsDigit c1 && lo ≤ digitsVal [c1] && digitsVal [c1] ≤ hi then
      some (digitsVal [c1], c2 :: rest)
    else none
  | [c1] =>
    if pyIsDigit c1 && lo ≤ digitsVal [c1] && digitsVal [c1] ≤ hi then
      some (digitsVal [c1], [])
    else none
  | [] => none

def monthAbbrs : List String :=
  ["Jan", "Feb", "Mar", "Apr", "May", "Jun", "Jul", "Aug", "Sep", "Oct", "Nov", "Dec"]

def monthFulls : List String :=
  ["January", "February", "March", "April", "May", "June", "July", "August",
   "September", "October", "November", "December"]

/-- Case-insensitive literal prefix test, returning the rest on success. -/
def dropCI (lit : List Char) (cs : List Char) : Option (List Char) :=
  match lit, cs with
  | [], rest => some rest
  | _ :: _, [] => none
  | l :: ls, c :: rest => if asciiLower c = asciiLower l then dropCI ls rest else none

/-- Match one of the month names (1-based index), case-insensitively. -/
def takeMonthName (names : List String) (cs : List Char) : Option (Nat × List Char) :=
  let rec go : List String → Nat → Option (Nat × List Char)
    | [], _ => none
    | n :: ns, i =>
      match dropCI n.data cs with
      | some rest => some (i, rest)
      | none => go ns (i + 1)
  go names 1

/-- Drop a literal character. -/
def dropLit (c : Char) (cs : List Char) : Option (List Char) :=
  match cs with
  | c' :: rest => if c' = c then some rest else none
  | [] => none

/-- The five `strptime` date formats used by the parser. -/
inductive DateFmt where
  | ymd      -- "%Y-%m-%d"
  | bdY      -- "%b %d, %Y"
  | BdY      -- "%B %d, %Y"
  | mdY      -- "%m/%d/%Y"
  | dmY      -- "%d/%m/%Y"
deriving DecidableEq, Repr

/-- `datetime.strptime(s, fmt).date()` as `(year, month, day)`, `none` for
`ValueError`. -/
def pyStrptimeDate (fmt : DateFmt) (s : String) : Option (Nat × Nat × Nat) :=
  let cs := s.data
  let checked : Option (Nat × Nat × Nat) → Option (Nat × Nat × Nat) := fun r =>
    match r with
    | some (y, m, d) =>
      if 1 ≤ y && 1 ≤ m && m ≤ 12 && 1 ≤ d && d ≤ daysInMonth y m then some (y, m, d)
      else none
    | none => none
  match fmt with
  | .ymd =>
    checked (do
      let (y, r1) ← takeDigitsN 4 cs
      let r2 ← dropLit '-' r1
      let (m, r3) ← takeDigits12 1 12 r2
      let r4 ← dropLit '-' r3
      let (d, r5) ← takeDigits12 1 31 r4
      if r5.isEmpty then some (y, m, d) else none)
  | .bdY =>
    checked (do
      let (m, r1) ← takeMonthName monthAbbrs cs
      let r2 ← dropLit ' ' r1
      let (d, r3) ← takeDigits12 1 31 r2
      let r4 ← dropLit ',' r3
      let r5 ← dropLit ' ' r4
      let (y, r6) ← takeDigitsN 4 r5
      if r6.isEmpty then some (y, m, d) else none)
  | .BdY =>
    checked (do
      let (m, r1) ← takeMonthName monthFulls cs
      let r2 ← dropLit ' ' r1
      let (d, r3) ← takeDigits12 1 31 r2
      let r4 ← dropLit ',' r3
      let r5 ← dropLit ' ' r4
      let (y, r6) ← takeDigitsN 4 r5
      if r6.isEmpty then some (y, m, d) else none)
  | .mdY =>
    checked (do
      let (m, r1) ← takeDigits12 1 12 cs
      let r2 ← dropLit '/' r1
      let (d, r3) ← takeDigits12 1 31 r2
      let r4 ← dropLit '/' r3
      let (y, r5) ← takeDigitsN 4 r4
      if r5.isEmpty then some (y, m, d) else none)
  | .dmY =>
    checked (do
      let (d, r1) ← takeDigits12 1 31 cs
      let r2 ← dropLit '/' r1
      let (m, r3) ← takeDigits12 1 12 r2
      let r4 ← dropLit '/' r3
      let (y, r5) ← takeDigitsN 4 r4
      if r5.isEmpty then some (y, m, d) else none)

/-- `date.isoformat()`. -/
def dateIso (y m d : Nat) : String := pad4 y ++ "-" ++ pad2 m ++ "-" ++ pad2 d

/-- The `for fmt in (...): try: ... except ValueError: pass` conversion loop
applied to a date token (callers strip beforehand where the source does). -/
def strptimeLoop (s : String) : Option String :=
  let fmts : List DateFmt := [.ymd, .bdY, .BdY, .mdY, .dmY]
  let rec go : List DateFmt → Option String
    | [] => none
    | f :: fs =>
      match pyStrptimeDate f s with
      | some (y, m, d) => some (dateIso y m d)
      | none => go fs
  go fmts

/-! ### Python values and dicts (announcement rows) -/

/-- Scalar Python values occurring in announcement rows. -/
inductive PyAtom where
  | str (s : String) : PyAtom
  | num (n : Int) : PyAtom
  | none : PyAtom
deriving DecidableEq, Repr

/-- The fragment of Python values occurring in announcement rows: scalars
and lists of scalars (the shapes of the JSON announcement payloads). -/
inductive PyVal where
  | str (s : String) : PyVal
  | num (n : Int) : PyVal
  | list (l : List PyAtom) : PyVal
  | none : PyVal
deriving DecidableEq, Repr

/-- An announcement row: a Python dict with string keys (association list,
keys unique, insertion order preserved — as in CPython dicts). -/
abbrev PyDict := List (String × PyVal)

/-- `row.get(k)`: `Option.none` models both a missing key and `None`. -/
def pyGet (row : PyDict) (k : String) : Option PyVal :=
  match row.find? (fun p => p.1 = k) with
  | some (_, v) => some v
  | Option.none => Option.none

/-- `{**row, k: v}`: copy with one key set (replaced in place if present,
appended otherwise — CPython dict-merge order). -/
def pyDictSet (row : PyDict) (k : String) (v : PyVal) : PyDict :=
  if (row.find? (fun p => p.1 = k)).isSome then
    row.map (fun p => if p.1 = k then (k, v) else p)
  else row ++ [(k, v)]

/-- Python truthiness of an optional string (`None` and `""` are falsy). -/
def pyTruthy : Option String → Bool
  | Option.none => false
  | some s => s ≠ ""

/-- The value of a string-typed field, as an optional string
(`isinstance(v, str)` filter). -/
def pyGetStr (row : PyDict) (k : String) : Option String :=
  match pyGet row k with
  | some (.str s) => some s
  | _ => Option.none

end Speedhive

namespace Speedhive

/-! ### `get_announcement_text` and row metadata accessors (client.py) -/

def textKeys : List String := ["text", "message", "content", "announcement", "value", "body"]

def listKeys : List String := ["cells", "columns", "data", "values"]

/-- `sorted(strings, key=len, reverse=True)[0]`: the first-listed string of
maximal length (Python's sort is stable). -/
def longestFirst : List String → String
  | [] => ""
  | h :: t => t.foldl (fun acc s => if s.length > acc.length then s else acc) h

/-- `SpeedHiveClient.get_announcement_text`. -/
def get_announcement_text (row : PyDict) : String :=
  match textKeys.findSome? (fun k =>
      match pyGet row k with
      | some (.str s) => if pyStrip s ≠ "" then some (pyStrip s) else Option.none
      | _ => Option.none) with
  | some s => s
  | Option.none =>
    match listKeys.findSome? (fun k =>
        match pyGet row k with
        | some (.list l) =>
          let strings := l.filterMap (fun a =>
            match a with
            | .str s => if pyStrip s ≠ "" then some (pyStrip s) else Option.none
            | _ => Option.none)
          if strings ≠ [] then some (longestFirst strings) else Option.none
        | _ => Option.none) with
    | some s => s
    | Option.none =>
      let strings := row.filterMap (fun p =>
        match p.2 with
        | .str s => if pyStrip s ≠ "" then some (pyStrip s) else Option.none
        | _ => Option.none)
      if strings ≠ [] then longestFirst strings else ""

/-- `row.get("trackName")` (metadata values are strings per spec §6). -/
def rowTrackName (row : PyDict) : Option String := pyGetStr row "trackName"

/-- `row.get("eventDate")`. -/
def rowEventDate (row : PyDict) : Option String := pyGetStr row "eventDate"

/-! ### The `TrackRecord` candidate -/

/-- Modelled from the spec: the `TrackRecord` dataclass is imported from
`speedhive_tools.models`, but no definition of it exists under `src/`.
Field names are those of the keyword arguments of every
`TrackRecord(...)` constructor call in `client.py`; field types follow the
spec's §3 data model and §6 output contract (`TrackRecordCandidate`). -/
structure TrackRecord where
  driver_name : String
  lap_time : String
  track_name : Option String
  date : Option String
  vehicle : Option String
  class_name : String
  extra : PyDict
deriving DecidableEq, Repr

/-! ### Detection gate -/

/-- `SpeedHiveClient.find_track_record_announcements`. -/
def find_track_record_announcements (text : String) : Bool :=
  if text = "" then false
  else if NEGATION_PATTERNS.any (fun p => reTest p text) then false
  else TR_PATTERNS.any (fun p => reTest p text)

/-! ### `parse_track_record_announcement` -/

/-- A value that Python would use as a `str`: `None` raises
`AttributeError` at `.strip()` (and kin). -/
def needStr : Option String → Except PyExc String
  | some s => .ok s
  | Option.none => .error .attributeError

/-- `re.split(_SEPS, raw)`. -/
def splitSepsAux : List Char → List Char → List String
  | acc, [] => [⟨acc.reverse⟩]
  | acc, c :: cs =>
    if isSepChar c then ⟨acc.reverse⟩ :: splitSepsAux [] cs
    else splitSepsAux (c :: acc) cs

def splitSeps (s : String) : List String := splitSepsAux [] s.data

/-- The `is_date_token` helper defined inside the fallback branch. -/
def is_date_token (t : String) : Bool :=
  [dateIsoTok, dateMonTok, dateSlashTok].any fun dp => reTest dp t

/-- The date scan of the fallback branch (`for t in tokens: for dp in …`),
run only when no `eventDate` metadata is present. -/
def fallbackDateScan (tokens : List String) : Option String :=
  tokens.findSome? fun t =>
    [dateIsoTok, dateMonTok, dateSlashTok].findSome? fun dp =>
      match reSearch dp t.data with
      | some d => strptimeLoop (group0 t.data d)
      | Option.none => Option.none

/-- The marque scan of the fallback branch.  `_PAREN_CONTENT` has no
capturing group, so on the first token containing doubly-parenthesised
content `mm.group(1)` raises `IndexError: no such group`. -/
def fallbackMarque (tokens : List String) : Except PyExc (Option String) :=
  match tokens.findSome? (fun t => (reSearch parenContent t.data).map fun m => (t, m)) with
  | some (t, m) =>
    match mGroup parenContent t.data m 1 with
    | .ok (some s) => .ok (some (pyStrip s))
    | .ok Option.none => .error .attributeError
    | .error e => .error e
  | Option.none => .ok Option.none

/-- `final_date` resolution of the `PRIMARY`/`ALTERNATE` branches:
`final_date = row.get("eventDate")`, then text-derived only when that is
falsy and a date token was captured. -/
def resolveDate (evd maybeDate : Option String) : Option String :=
  if !pyTruthy evd && pyTruthy maybeDate then
    match strptimeLoop (pyStrip (maybeDate.getD "")) with
    | some d => some d
    | Option.none => evd
  else evd

/-- `driver_clean = re.sub(r"\[\s*\d+\s*\]\s*", "", driver_raw).strip()`. -/
def cleanDriver (driverRaw : String) : String := pyStrip (pySubGrid driverRaw)

/-- `SpeedHiveClient.parse_track_record_announcement`.  Returns
`.ok (some r)` for a parsed candidate, `.ok none` where the source returns
`None`, and `.error e` on the inputs where the source raises.  (The `←`-free
style: each Python expression that can raise is matched explicitly; a `None`
group fed to `.strip()`/`re.sub` raises, embedded as `.error`.) -/
def parse_track_record_announcement (row : PyDict) : Except PyExc (Option TrackRecord) :=
  let raw := normalizeWs (get_announcement_text row)
  if !find_track_record_announcements raw then .ok Option.none
  else
  let inp := raw.data
  -- New (time) for CLASS by DRIVER in MARQUE.
  match reSearch RE_FOR_BY_IN inp with
  | some m =>
    match groupVal inp m 1, groupVal inp m 2, groupVal inp m 3, groupVal inp m 4 with
    | some lapTime, some classAbbr, some driverRaw, some marque =>
      .ok (some
        { driver_name := cleanDriver driverRaw
          lap_time := pyStrip lapTime
          track_name := rowTrackName row
          date := rowEventDate row
          vehicle := some (pyStrip marque)
          class_name := pyStrip classAbbr
          extra := pyDictSet row "announcementText" (.str raw) })
    | _, _, _, _ => .error .attributeError
  | Option.none =>
  -- New (time) for CLASS by DRIVER.
  match reSearch RE_FOR_BY inp with
  | some m =>
    match groupVal inp m 1, groupVal inp m 2, groupVal inp m 3 with
    | some lapTime, some classAbbr, some driverRaw =>
      .ok (some
        { driver_name := cleanDriver driverRaw
          lap_time := pyStrip lapTime
          track_name := rowTrackName row
          date := rowEventDate row
          vehicle := Option.none
          class_name := pyStrip classAbbr
          extra := pyDictSet row "announcementText" (.str raw) })
    | _, _, _ => .error .attributeError
  | Option.none =>
  -- New time for CLASS by DRIVER (no parentheses around time)
  match reSearch RE_FOR_BY_NOPAREN inp with
  | some m =>
    match groupVal inp m 1, groupVal inp m 2, groupVal inp m 3 with
    | some lapTime, some classAbbr, some driverRaw =>
      .ok (some
        { driver_name := cleanDriver driverRaw
          lap_time := pyStrip lapTime
          track_name := rowTrackName row
          date := rowEventDate row
          vehicle := Option.none
          class_name := pyStrip classAbbr
          extra := pyDictSet row "announcementText" (.str raw) })
    | _, _, _ => .error .attributeError
  | Option.none =>
  -- Separator-based primary (CLASS – TIME – DRIVER – (MARQUE) – DATE):
  -- `(list(m.groups()) + ["", ""])[:5]` on a 4-group match, so
  -- `maybe_marque` receives group 4 (the date) and `maybe_date` is "".
  match reSearch PRIMARY inp with
  | some m =>
    let maybeMarque := groupVal inp m 4
    let maybeDate : Option String := some ""
    let finalDate := resolveDate (rowEventDate row) maybeDate
    match groupVal inp m 1, groupVal inp m 2, groupVal inp m 3 with
    | some classS, some lapS, some driverS =>
      .ok (some
        { driver_name := cleanDriver driverS
          lap_time := pyStrip lapS
          track_name := rowTrackName row
          date := finalDate
          vehicle := if pyTruthy maybeMarque then some (pyStrip (maybeMarque.getD "")) else Option.none
          class_name := pyStrip classS
          extra := pyDictSet row "announcementText" (.str raw) })
    | _, _, _ => .error .attributeError
  | Option.none =>
  -- Alternate separator (DRIVER – TIME – CLASS – (DATE)):
  -- `(list(m.groups()) + [""])[0:5]` on a 4-group match, so `maybe_marque`
  -- receives group 2 (the time), `lap_time` group 3 (the class),
  -- `class_abbr` group 4 (the date — `None` when absent) and
  -- `maybe_date` is ""; `class_abbr.strip()` then raises on `None`.
  match reSearch ALTERNATE inp with
  | some m =>
    let maybeMarque := groupVal inp m 2
    let maybeDate : Option String := some ""
    let finalDate := resolveDate (rowEventDate row) maybeDate
    match groupVal inp m 1, groupVal inp m 3, groupVal inp m 4 with
    | some driverS, some lapS, some classS =>
      .ok (some
        { driver_name := cleanDriver driverS
          lap_time := pyStrip lapS
          track_name := rowTrackName row
          date := finalDate
          vehicle := if pyTruthy maybeMarque then some (pyStrip (maybeMarque.getD "")) else Option.none
          class_name := pyStrip classS
          extra := pyDictSet row "announcementText" (.str raw) })
    | _, _, _ => .error .attributeError
  | Option.none =>
  -- Fallback anchored on lap time
  match reSearch FIND_TIME inp with
  | some tf =>
    let lapTime := group0 inp tf
    let tokens := ((splitSeps raw).map pyStrip).filter (fun t => t ≠ "")
    let classAbbr := tokens.find? fun t => (reFullmatch CLASS_FULL t.data).isSome
    let dateIso0 := rowEventDate row
    let dateIso := if pyTruthy dateIso0 then dateIso0 else
      match fallbackDateScan tokens with
      | some d => some d
      | Option.none => dateIso0
    match fallbackMarque tokens with
    | .error e => .error e
    | .ok marque =>
      let candidates := tokens.filter fun t =>
        t ≠ lapTime
        && (match classAbbr with | some ca => t ≠ ca | Option.none => true)
        && !is_date_token t
        && !(reSearch parenContent t.data).isSome
        && !strHasSub "New Track Record" t
        && !strHasSub "New Class Record" t
      let driver := if candidates ≠ [] then pyStrip (longestFirst candidates) else ""
      if pyTruthy classAbbr || driver ≠ "" || pyTruthy marque || pyTruthy dateIso then
        .ok (some
          { driver_name := driver
            lap_time := lapTime
            track_name := rowTrackName row
            date := dateIso
            vehicle := marque
            class_name := classAbbr.getD ""
            extra := pyDictSet row "announcementText" (.str raw) })
      else .ok Option.none
  | Option.none => .ok Option.none

end Speedhive

namespace Speedhive

/-! ### Validation (`SpeedHiveClient.is_record_valid`) -/

/-- `not isinstance(v, str) or not v.strip()`: a missing/`None` or
blank-after-strip optional string field. -/
def blankOpt : Option String → Bool
  | Option.none => true
  | some t => pyStrip t = ""

/-- `re.fullmatch(r"\d{1,2}:\d{2}\.\d{3}", s)` as a direct shape test on the
character list (a fullmatch of this pattern is determined by the length: 8
chars for one minute digit, 9 for two). -/
def lapTimeFullmatch (s : String) : Bool :=
  match s.data with
  | [a, b, c, d, e, f, g, h] =>
    pyIsDigit a && b = ':' && pyIsDigit c && pyIsDigit d &&
      e = '.' && pyIsDigit f && pyIsDigit g && pyIsDigit h
  | [a, a2, b, c, d, e, f, g, h] =>
    pyIsDigit a && pyIsDigit a2 && b = ':' && pyIsDigit c && pyIsDigit d &&
      e = '.' && pyIsDigit f && pyIsDigit g && pyIsDigit h
  | _ => false

/-- `SpeedHiveClient.is_record_valid`: `(ok, reason)` with the source's
short, stable reason strings, checks in source order, first failure wins. -/
def is_record_valid : Option TrackRecord → Bool × Option String
  | Option.none => (false, some "No record parsed")
  | some tr =>
    if tr.lap_time = "" || !lapTimeFullmatch tr.lap_time then
      (false, some "Invalid lapTime")
    else if pyStrip tr.driver_name = "" then
      (false, some "Missing driverName")
    else if blankOpt tr.track_name then
      (false, some "Missing trackName")
    else if pyStrip tr.class_name = "" then
      (false, some "Missing classAbbreviation")
    else (true, Option.none)

/-- Modelled from the spec: the orchestration-level acceptance policy of
§4.4 ("Documented exception path") and §7 of the specification.  No caller
of `is_record_valid` exists under `src/` (the orchestration layer is not in
the provided sources), so this follows the spec's words: a candidate whose
only rejection reason is exactly "Missing classAbbreviation" is accepted
with `classAbbreviation` rewritten to the empty string; every other
rejection is terminal; valid candidates pass through unchanged. -/
def orchestrate_accept (tr : TrackRecord) : Option TrackRecord :=
  match is_record_valid (some tr) with
  | (true, _) => some tr
  | (false, some r) =>
    if r = "Missing classAbbreviation" then some { tr with class_name := "" }
    else Option.none
  | (false, Option.none) => Option.none

/-! ### Lap-time numerics (utils.py)

`parse_lap_time_to_seconds` / `format_seconds_to_lap_time` and the client's
`_normalize_lap_time_str`.  Every number these functions handle is a finite
decimal, so seconds values are embedded exactly as `Dec`: a mantissa `m`
over a power-of-ten scale `e`, denoting `m / 10^e`.  The float arithmetic
of the source on these values (integral multiples of 1/1000, far below
2^52, and the final 3-decimal rounding) produces exactly the digits the
decimal model does. -/

/-- An exact decimal number `m / 10 ^ e`. -/
structure Dec where
  m : Int
  e : Nat
deriving DecidableEq, Repr

namespace Dec

def ofNat (n : Nat) : Dec := ⟨n, 0⟩

/-- Exact sum (brought to the common scale). -/
def add (a b : Dec) : Dec :=
  if a.e ≤ b.e then ⟨a.m * (10 : Int) ^ (b.e - a.e) + b.m, b.e⟩
  else ⟨a.m + b.m * (10 : Int) ^ (a.e - b.e), a.e⟩

/-- Exact product by an integer. -/
def mulInt (a : Dec) (k : Int) : Dec := ⟨a.m * k, a.e⟩

/-- Exact difference of a natural number of units. -/
def subNat (a : Dec) (k : Nat) : Dec := ⟨a.m - k * (10 : Int) ^ a.e, a.e⟩

/-- `m / 10^e < 0`. -/
def isNeg (a : Dec) : Bool := a.m < 0

/-- `⌊a / k⌋` for positive `k`, on a non-negative decimal. -/
def floorDivNat (a : Dec) (k : Nat) : Nat := a.m.toNat / (k * 10 ^ a.e)

/-- The denoted rational (for value-level statements about the model). -/
def toRat (a : Dec) : ℚ := (a.m : ℚ) / (10 : ℚ) ^ a.e

end Dec

/-- Split on ':' (the `_LAP_TIME_RX` branch bodies cannot contain a colon,
so the applicable alternative is decided by the colon count and every
component must be wholly consumed by its group). -/
def splitColonAux : List Char → List Char → List (List Char)
  | acc, [] => [acc.reverse]
  | acc, c :: cs =>
    if c = ':' then acc.reverse :: splitColonAux [] cs
    else splitColonAux (c :: acc) cs

def splitColon (cs : List Char) : List (List Char) := splitColonAux [] cs

/-- `[0-5]?\d` as a whole-component match (minutes groups). -/
def isMin05 : List Char → Bool
  | [d] => pyIsDigit d
  | [d1, d2] => ('0' ≤ d1 && d1 ≤ '5') && pyIsDigit d2
  | _ => false

/-- Value of a fraction-digit list (`float("0." + frac)`, exactly): the
digits' value over `10 ^ length`. -/
def fracVal (ds : List Char) : Dec := ⟨digitsVal ds, ds.length⟩

/-- `\d{1,2}(?:\.\d+)?` as a whole-component match (seconds groups). -/
def isSecs12 (cs : List Char) : Bool :=
  let ip := cs.takeWhile pyIsDigit
  let rest := cs.dropWhile pyIsDigit
  (ip.length = 1 || ip.length = 2) &&
    (rest.isEmpty ||
      (rest.headD ' ' = '.' && !(rest.drop 1).isEmpty && (rest.drop 1).all pyIsDigit))

/-- `\d+(?:\.\d+)?` as a whole-component match (`seconds_flat`). -/
def isSecsFlat (cs : List Char) : Bool :=
  let ip := cs.takeWhile pyIsDigit
  let rest := cs.dropWhile pyIsDigit
  !ip.isEmpty &&
    (rest.isEmpty ||
      (rest.headD ' ' = '.' && !(rest.drop 1).isEmpty && (rest.drop 1).all pyIsDigit))

/-- Exact value of a decimal-digit component with optional fraction. -/
def secsVal (cs : List Char) : Dec :=
  Dec.add (Dec.ofNat (digitsVal (cs.takeWhile pyIsDigit)))
    (match cs.dropWhile pyIsDigit with
     | '.' :: ds => fracVal ds
     | _ => Dec.ofNat 0)

/-- `parse_lap_time_to_seconds` (utils.py): `_LAP_TIME_RX` matching plus the
three-branch arithmetic; `none` models the `ValueError` raises. -/
def parse_lap_time_to_seconds (value : String) : Option Dec :=
  let cs := pyStripL value.data
  match splitColon cs with
  | [h, m, s] =>
    if !h.isEmpty && h.all pyIsDigit && isMin05 m && isSecs12 s then
      some (Dec.add (Dec.ofNat (digitsVal h * 3600 + digitsVal m * 60)) (secsVal s))
    else Option.none
  | [m, s] =>
    if isMin05 m && isSecs12 s then
      some (Dec.add (Dec.ofNat (digitsVal m * 60)) (secsVal s))
    else Option.none
  | [s] => if isSecsFlat s then some (secsVal s) else Option.none
  | _ => Option.none

/-- Python `str(int(n))` digits for a natural number (fuel-structural). -/
def natDigsAux : Nat → Nat → List Char
  | 0, _ => []
  | fuel + 1, n =>
    if n < 10 then [Char.ofNat (48 + n)]
    else natDigsAux fuel (n / 10) ++ [Char.ofNat (48 + n % 10)]

def natToChars (n : Nat) : List Char := natDigsAux (n + 1) n

/-- Two-digit zero padding (of the seconds integer part in `%06.3f`). -/
def pad2L (n : Nat) : List Char :=
  if n < 10 then '0' :: natToChars n else natToChars n

/-- Three-digit zero padding (of the milliseconds in `%.3f`). -/
def pad3L (n : Nat) : List Char :=
  if n < 10 then '0' :: '0' :: natToChars n
  else if n < 100 then '0' :: natToChars n
  else natToChars n

/-- `format_seconds_to_lap_time` (utils.py) on an exact decimal:
`divmod(seconds, 60.0)` then `f"{int(minutes)}:{sec:06.3f}"` — minutes is
`⌊q/60⌋`, the seconds remainder is rendered to three decimals (nearest,
`ms = ⌊sec·1000 + 1/2⌋`; on the integral thousandths arising from lap-time
strings this rounding is exact and matches the source's float formatting).
Negative input raises `ValueError` (`none`). -/
def format_seconds_to_lap_time (q : Dec) : Option String :=
  if q.isNeg then Option.none
  else
    let mins : ℕ := q.floorDivNat 60
    let ms : ℕ := ((q.subNat (60 * mins)).mulInt 1000 |>.add ⟨5, 1⟩).floorDivNat 1
    some ⟨natToChars mins ++ ':' :: (pad2L (ms / 1000) ++ '.' :: pad3L (ms % 1000))⟩

/-- Python `float(s)` on plain decimal literals (optional sign, digits with
optional fraction, surrounding whitespace).  The other spellings `float`
accepts (exponents, `inf`/`nan`, underscores) do not occur in lap-time
data and are modelled as failures. -/
def pyFloat (s : String) : Option Dec :=
  let cs := pyStripL s.data
  let sign : Int × List Char :=
    match cs with
    | '-' :: r => (-1, r)
    | '+' :: r => (1, r)
    | r => (1, r)
  let ip := sign.2.takeWhile pyIsDigit
  match sign.2.dropWhile pyIsDigit with
  | [] =>
    if ip.isEmpty then Option.none
    else some ((Dec.ofNat (digitsVal ip)).mulInt sign.1)
  | '.' :: ds =>
    if ds.all pyIsDigit && !(ip.isEmpty && ds.isEmpty) then
      some ((Dec.add (Dec.ofNat (digitsVal ip)) (fracVal ds)).mulInt sign.1)
    else Option.none
  | _ => Option.none

/-- `SpeedHiveClient._normalize_lap_time_str` on a string value:
`str(value).strip()`, pass-through when the canonical pattern fullmatches,
otherwise `float(s)` and reformat, and on any exception the original
(stripped) string.  (`format_seconds_to_lap_time`'s `ValueError` for
negative seconds is caught by the `except Exception` of the source, hence
`getD s`.) -/
def normalize_lap_time_str (value : String) : String :=
  let s := pyStrip value
  if lapTimeFullmatch s then s
  else
    match pyFloat s with
    | some q => (format_seconds_to_lap_time q).getD s
    | Option.none => s

end Speedhive

namespace Speedhive

/-! ### `parse_time_value` (utils/common.py) and
`parse_track_record_text` (utils/track_records.py) -/

/-- `(?:(\d+):)?(\d+)(?:\.(\d+))?` of `parse_time_value`. -/
def TIMEISH : RE :=
  rcat [ropt (.seq (.grp 1 (rplus rdg)) (rch ':')), .grp 2 (rplus rdg),
    ropt (.seq (rch '.') (.grp 3 (rplus rdg)))]

/-- `(\d+\.\d+|\d+)` of `parse_time_value`. -/
def NUMTOK : RE :=
  .grp 1 (.alt (rcat [rplus rdg, rch '.', rplus rdg]) (rplus rdg))

/-- `parse_time_value` (utils/common.py) on a string value: `float(s)` if it
parses, else the loose `mm:ss.frac` regex, else the first bare number. -/
def parse_time_value (v : String) : Option Dec :=
  let s := pyStrip v
  if s = "" then Option.none
  else
    match pyFloat s with
    | some q => some q
    | Option.none =>
      match reSearch TIMEISH s.data with
      | some m =>
        let mins := groupVal s.data m 1
        let secs := (groupVal s.data m 2).getD ""
        let frac := (groupVal s.data m 3).getD "0"
        some (Dec.add
          (Dec.ofNat ((match mins with
                       | some mn => digitsVal mn.data * 60
                       | Option.none => 0)
            + digitsVal secs.data))
          (fracVal frac.data))
      | Option.none =>
        match reSearch NUMTOK s.data with
        | some m2 =>
          match groupVal s.data m2 1 with
          | some g => pyFloat g
          | Option.none => Option.none
        | Option.none => Option.none

/-- `_RE_TRACK` (utils/track_records.py, `re.IGNORECASE`):
`New (?:Track|Class) Record\s*\(([0-9:.]+)\)\s*for\s+([^\s]+)\s+by\s+(.+?)\.?$`. -/
def RE_TRACK : RE :=
  rcat [rstrCI "New ", .alt (rstrCI "Track") (rstrCI "Class"), rstrCI " Record",
    .star false rsp, rch '(',
    .grp 1 (rplus (.cls fun c => pyIsDigit c || c = ':' || c = '.')), rch ')',
    .star false rsp, rstrCI "for", rplus rsp,
    .grp 2 (rplus (.cls fun c => !pyIsSpace c)), rplus rsp, rstrCI "by",
    rplus rsp, .grp 3 (rplusLazy rany), ropt (rch '.'), .endA]

/-- `^(.+?)\s+in\s+(.+)$` (IGNORECASE), used to split off an `in MARQUE`
clause; `^`-anchored, so it is a match at position 0. -/
def IN_SPLIT : RE :=
  rcat [.grp 1 (rplusLazy rany), rplus rsp, rstrCI "in", rplus rsp,
    .grp 2 (rplus rany), .endA]

/-- `str.rstrip('.')`. -/
def rstripDot (s : String) : String :=
  ⟨(s.data.reverse.dropWhile (fun c => c = '.')).reverse⟩

/-- `re.sub(r"^\s*\[\s*\d+\s*\]\s*", "", s)`: anchored, so at most one
substitution, at the front. -/
def lstripGrid (s : String) : String :=
  match gridAt (s.data.dropWhile pyIsSpace) with
  | some rest => ⟨rest⟩
  | Option.none => s

/-- The dict returned by `parse_track_record_text`. -/
structure ParsedRecordText where
  classification : String
  lap_time : String
  lap_time_seconds : Option Dec
  driver : String
  marque : Option String
deriving DecidableEq, Repr

/-- `parse_track_record_text` (utils/track_records.py). -/
def parse_track_record_text (text : String) : Option ParsedRecordText :=
  if text = "" then Option.none
  else
    let sub := (pyStrip text).data
    match reSearch RE_TRACK sub with
    | Option.none => Option.none
    | some m =>
      let lapTime := (groupVal sub m 1).getD ""
      let classification := (groupVal sub m 2).getD ""
      let driverBlock := pyStrip ((groupVal sub m 3).getD "")
      let dm : String × Option String :=
        match reMatchAt IN_SPLIT driverBlock.data 0 with
        | some mm =>
          (pyStrip ((groupVal driverBlock.data mm 1).getD ""),
           some (rstripDot (pyStrip ((groupVal driverBlock.data mm 2).getD ""))))
        | Option.none => (driverBlock, Option.none)
      let driverName := lstripGrid dm.1
      let lapSeconds := parse_time_value lapTime
      let low := strLower text
      if strHasSub "to be confirmed" low || strHasSub "not a track record" low
          || strHasSub "not a class record" low then
        Option.none
      else
        some { classification := classification, lap_time := lapTime,
               lap_time_seconds := lapSeconds, driver := driverName,
               marque := dm.2 }

/-! ### Heap-level reading of the parser (object identity) -/

/-- A record whose provenance `extra` is a heap reference instead of an
inline dict. -/
structure TrackRecordRef where
  driver_name : String
  lap_time : String
  track_name : Option String
  date : Option String
  vehicle : Option String
  class_name : String
  extraRef : Nat
deriving DecidableEq, Repr

/-- Object store: references to dict objects. -/
abbrev Heap := Nat → Option PyDict

/-- Heap-level reading of `parse_track_record_announcement`.  The Python
body performs no mutating statement on any existing object: `row` is only
read (via `row.get`/`row.values`), and the single dict the function builds,
`{**row, "announcementText": raw}`, is a fresh object.  `next` is the next
free address (all live objects sit below it); the effect on the store is
exactly the allocation of that one dict when a record is returned. -/
def parse_track_record_announcement_heap (h : Heap) (next rowRef : Nat) :
    Heap × Nat × Except PyExc (Option TrackRecordRef) :=
  match h rowRef with
  | Option.none => (h, next, .ok Option.none)
  | some row =>
    match parse_track_record_announcement row with
    | .error e => (h, next, .error e)
    | .ok Option.none => (h, next, .ok Option.none)
    | .ok (some tr) =>
      (fun r => if r = next then some tr.extra else h r, next + 1,
        .ok (some
          { driver_name := tr.driver_name, lap_time := tr.lap_time,
            track_name := tr.track_name, date := tr.date,
            vehicle := tr.vehicle, class_name := tr.class_name,
            extraRef := next }))

end Speedhive

namespace Speedhive

/-! ### Digit-arithmetic toolkit for the lap-time round trip -/

theorem digit_not_space {c : Char} (hc : pyIsDigit c = true) : pyIsSpace c = false := by
  simp only [pyIsDigit, Bool.and_eq_true, decide_eq_true_eq] at hc
  simp only [pyIsSpace, Bool.or_eq_false_iff, decide_eq_false_iff_not]
  refine ⟨⟨⟨⟨⟨?_, ?_⟩, ?_⟩, ?_⟩, ?_⟩, ?_⟩ <;> (rintro rfl; revert hc; decide)

theorem digit_ne_colon {c : Char} (hc : pyIsDigit c = true) : c ≠ ':' := by
  rintro rfl; revert hc; decide

theorem pyIsDigit_ofNat {d : ℕ} (hd : d ≤ 9) : pyIsDigit (Char.ofNat (48 + d)) = true := by
  interval_cases d <;> decide

theorem toNat_ofNat_digit {d : ℕ} (hd : d ≤ 9) : (Char.ofNat (48 + d)).toNat - 48 = d := by
  interval_cases d <;> decide

theorem natDigsAux_small {fuel n : ℕ} (hf : 0 < fuel) (hn : n < 10) :
    natDigsAux fuel n = [Char.ofNat (48 + n)] := by
  cases fuel with
  | zero => omega
  | succ f => simp [natDigsAux, hn]

theorem natToChars_small {n : ℕ} (hn : n < 10) : natToChars n = [Char.ofNat (48 + n)] :=
  natDigsAux_small (by omega) hn

theorem natToChars_two {n : ℕ} (h1 : 10 ≤ n) (h2 : n ≤ 99) :
    natToChars n = [Char.ofNat (48 + n / 10), Char.ofNat (48 + n % 10)] := by
  have hn : ¬ n < 10 := by omega
  have hq : n / 10 < 10 := by omega
  unfold natToChars natDigsAux
  simp only [hn, if_false]
  rw [natDigsAux_small (by omega) hq]
  rfl

theorem natToChars_three {n : ℕ} (h1 : 100 ≤ n) (h2 : n ≤ 999) :
    natToChars n =
      [Char.ofNat (48 + n / 100), Char.ofNat (48 + n / 10 % 10), Char.ofNat (48 + n % 10)] := by
  have hn : ¬ n < 10 := by omega
  unfold natToChars natDigsAux
  simp only [hn, if_false]
  have hq1 : 10 ≤ n / 10 := by omega
  have hq2 : n / 10 ≤ 99 := by omega
  have : natDigsAux n (n / 10) = [Char.ofNat (48 + n / 10 / 10), Char.ofNat (48 + n / 10 % 10)] := by
    have hn2 : ¬ n / 10 < 10 := by omega
    cases n with
    | zero => omega
    | succ m =>
      unfold natDigsAux
      simp only [hn2, if_false]
      rw [natDigsAux_small (by omega) (by omega)]
      rfl
  rw [this]
  have : n / 10 / 10 = n / 100 := by rw [Nat.div_div_eq_div_mul]
  rw [this]
  rfl

theorem natDigsAux_digit : ∀ fuel n : ℕ, ∀ c ∈ natDigsAux fuel n, pyIsDigit c = true := by
  intro fuel
  induction fuel with
  | zero => intro n c hc; simp [natDigsAux] at hc
  | succ f ih =>
    intro n c hc
    by_cases hn : n < 10
    · simp only [natDigsAux, hn, if_true, List.mem_singleton] at hc
      subst hc
      exact pyIsDigit_ofNat (by omega)
    · simp only [natDigsAux, hn, if_false, List.mem_append, List.mem_singleton] at hc
      rcases hc with hc | hc
      · exact ih _ _ hc
      · subst hc
        exact pyIsDigit_ofNat (Nat.le_of_lt_succ (Nat.mod_lt _ (by omega)))

theorem natToChars_digit {n : ℕ} : ∀ c ∈ natToChars n, pyIsDigit c = true :=
  natDigsAux_digit _ _

theorem pad2L_digit {n : ℕ} : ∀ c ∈ pad2L n, pyIsDigit c = true := by
  intro c hc
  unfold pad2L at hc
  split at hc
  · rcases List.mem_cons.mp hc with h | h
    · subst h; decide
    · exact natToChars_digit _ h
  · exact natToChars_digit _ hc

theorem pad3L_digit {n : ℕ} : ∀ c ∈ pad3L n, pyIsDigit c = true := by
  intro c hc
  unfold pad3L at hc
  split at hc
  · rcases List.mem_cons.mp hc with h | h
    · subst h; decide
    · rcases List.mem_cons.mp h with h | h
      · subst h; decide
      · exact natToChars_digit _ h
  · split at hc
    · rcases List.mem_cons.mp hc with h | h
      · subst h; decide
      · exact natToChars_digit _ h
    · exact natToChars_digit _ hc

theorem digitsVal_pad2L {n : ℕ} (h : n ≤ 99) : digitsVal (pad2L n) = n := by
  have h0 : ('0' : Char).toNat = 48 := rfl
  by_cases hn : n < 10
  · rw [pad2L, if_pos hn, natToChars_small hn]
    simp only [digitsVal, List.foldl]
    have := toNat_ofNat_digit (d := n) (by omega)
    omega
  · rw [pad2L, if_neg hn, natToChars_two (n := n) (by omega) h]
    simp only [digitsVal, List.foldl]
    have h1 := toNat_ofNat_digit (d := n / 10) (by omega)
    have h2 := toNat_ofNat_digit (d := n % 10) (by omega)
    omega

theorem digitsVal_pad3L {n : ℕ} (h : n ≤ 999) : digitsVal (pad3L n) = n := by
  have h0 : ('0' : Char).toNat = 48 := rfl
  by_cases hn : n < 10
  · rw [pad3L, if_pos hn, natToChars_small hn]
    simp only [digitsVal, List.foldl]
    have := toNat_ofNat_digit (d := n) (by omega)
    omega
  · by_cases hn2 : n < 100
    · rw [pad3L, if_neg hn, if_pos hn2, natToChars_two (n := n) (by omega) (by omega)]
      simp only [digitsVal, List.foldl]
      have h1 := toNat_ofNat_digit (d := n / 10) (by omega)
      have h2 := toNat_ofNat_digit (d := n % 10) (by omega)
      omega
    · rw [pad3L, if_neg hn, if_neg hn2, natToChars_three (n := n) (by omega) h]
      simp only [digitsVal, List.foldl]
      have h1 := toNat_ofNat_digit (d := n / 100) (by omega)
      have h2 := toNat_ofNat_digit (d := n / 10 % 10) (by omega)
      have h3 := toNat_ofNat_digit (d := n % 10) (by omega)
      omega

theorem pad2L_len {n : ℕ} (h : n ≤ 99) : (pad2L n).length = 2 := by
  by_cases hn : n < 10
  · rw [pad2L, if_pos hn, natToChars_small hn]
    rfl
  · rw [pad2L, if_neg hn, natToChars_two (n := n) (by omega) h]
    rfl

theorem pad3L_ne_nil {n : ℕ} (h : n ≤ 999) : pad3L n ≠ [] := by
  by_cases hn : n < 10
  · rw [pad3L, if_pos hn, natToChars_small hn]
    simp
  · by_cases hn2 : n < 100
    · rw [pad3L, if_neg hn, if_pos hn2, natToChars_two (n := n) (by omega) (by omega)]
      simp
    · rw [pad3L, if_neg hn, if_neg hn2, natToChars_three (n := n) (by omega) h]
      simp

theorem pad3L_len {n : ℕ} (h : n ≤ 999) : (pad3L n).length = 3 := by
  by_cases hn : n < 10
  · rw [pad3L, if_pos hn, natToChars_small hn]
    rfl
  · by_cases hn2 : n < 100
    · rw [pad3L, if_neg hn, if_pos hn2, natToChars_two (n := n) (by omega) (by omega)]
      rfl
    · rw [pad3L, if_neg hn, if_neg hn2, natToChars_three (n := n) (by omega) h]
      rfl

/-- A list with no whitespace is unchanged by `strip`. -/
theorem pyStripL_id {l : List Char} (h : ∀ c ∈ l, pyIsSpace c = false) : pyStripL l = l := by
  have h1 : l.dropWhile pyIsSpace = l := by
    cases l with
    | nil => rfl
    | cons c t => simp [List.dropWhile_cons, h c (by simp)]
  have h2 : l.reverse.dropWhile pyIsSpace = l.reverse := by
    cases hr : l.reverse with
    | nil => rfl
    | cons c t =>
      have hm : c ∈ l := by
        rw [← List.mem_reverse, hr]
        simp
      simp [List.dropWhile_cons, h c hm]
  rw [pyStripL, h1, h2, List.reverse_reverse]

theorem splitColonAux_no (xs : List Char) (acc : List Char) (h : ∀ c ∈ xs, c ≠ ':') :
    splitColonAux acc xs = [acc.reverse ++ xs] := by
  induction xs generalizing acc with
  | nil => simp [splitColonAux]
  | cons c t ih =>
    have hc : ¬ c = ':' := h c (by simp)
    rw [splitColonAux, if_neg hc, ih (c :: acc) (fun x hx => h x (by simp [hx]))]
    simp

theorem splitColonAux_append (xs : List Char) (acc ys : List Char)
    (h : ∀ c ∈ xs, c ≠ ':') :
    splitColonAux acc (xs ++ ':' :: ys) = (acc.reverse ++ xs) :: splitColonAux [] ys := by
  induction xs generalizing acc with
  | nil => simp [splitColonAux]
  | cons c t ih =>
    have hc : ¬ c = ':' := h c (by simp)
    rw [List.cons_append, splitColonAux, if_neg hc,
      ih (c :: acc) (fun x hx => h x (by simp [hx]))]
    simp

theorem takeWhile_app {p : Char → Bool} (xs : List Char) (y : Char) (ys : List Char)
    (hxs : ∀ c ∈ xs, p c = true) (hy : p y = false) :
    List.takeWhile p (xs ++ y :: ys) = xs := by
  induction xs with
  | nil => simp [List.takeWhile_cons, hy]
  | cons c t ih =>
    rw [List.cons_append, List.takeWhile_cons, hxs c (by simp)]
    rw [ih (fun x hx => hxs x (by simp [hx]))]
    simp

theorem dropWhile_app {p : Char → Bool} (xs : List Char) (y : Char) (ys : List Char)
    (hxs : ∀ c ∈ xs, p c = true) (hy : p y = false) :
    List.dropWhile p (xs ++ y :: ys) = y :: ys := by
  induction xs with
  | nil => simp [List.dropWhile_cons, hy]
  | cons c t ih =>
    rw [List.cons_append, List.dropWhile_cons]
    simp only [hxs c (by simp), if_true]
    exact ih (fun x hx => hxs x (by simp [hx]))

/-- The canonical rendering `f"{M}:{SS:02d}.{mmm:03d}"` — the exact string
shape `format_seconds_to_lap_time` produces. -/
def renderLap (M SS mmm : ℕ) : String :=
  ⟨natToChars M ++ ':' :: (pad2L SS ++ '.' :: pad3L mmm)⟩

theorem digitsVal_natToChars {n : ℕ} (h : n ≤ 99) : digitsVal (natToChars n) = n := by
  by_cases hn : n < 10
  · rw [natToChars_small hn]
    simp only [digitsVal, List.foldl]
    have := toNat_ofNat_digit (d := n) (by omega)
    omega
  · rw [natToChars_two (n := n) (by omega) h]
    simp only [digitsVal, List.foldl]
    have h1 := toNat_ofNat_digit (d := n / 10) (by omega)
    have h2 := toNat_ofNat_digit (d := n % 10) (by omega)
    omega

theorem parse_renderLap {M SS mmm : ℕ} (hM : M ≤ 59) (hSS : SS ≤ 59) (hm : mmm ≤ 999) :
    parse_lap_time_to_seconds (renderLap M SS mmm) =
      some ⟨((60000 * M + 1000 * SS + mmm : ℕ) : ℤ), 3⟩ := by
  have hd2 : ∀ c ∈ pad2L SS, pyIsDigit c = true := pad2L_digit
  have hd3 : ∀ c ∈ pad3L mmm, pyIsDigit c = true := pad3L_digit
  have hns : ∀ c ∈ (renderLap M SS mmm).data, pyIsSpace c = false := by
    intro c hc
    rcases List.mem_append.mp hc with h | h
    · exact digit_not_space (natToChars_digit c h)
    · rcases List.mem_cons.mp h with h | h
      · subst h; decide
      · rcases List.mem_append.mp h with h | h
        · exact digit_not_space (hd2 c h)
        · rcases List.mem_cons.mp h with h | h
          · subst h; decide
          · exact digit_not_space (hd3 c h)
  have hsplit : splitColon (pyStripL (renderLap M SS mmm).data)
      = [natToChars M, pad2L SS ++ '.' :: pad3L mmm] := by
    rw [pyStripL_id hns]
    show splitColonAux [] (natToChars M ++ ':' :: (pad2L SS ++ '.' :: pad3L mmm)) = _
    rw [splitColonAux_append _ _ _ (fun c hc => digit_ne_colon (natToChars_digit c hc)),
      splitColonAux_no _ _ (fun c hc => by
        rcases List.mem_append.mp hc with h | h
        · exact digit_ne_colon (hd2 c h)
        · rcases List.mem_cons.mp h with h | h
          · subst h; decide
          · exact digit_ne_colon (hd3 c h))]
    simp
  have hmin : isMin05 (natToChars M) = true := by
    by_cases hM10 : M < 10
    · rw [natToChars_small hM10]
      show pyIsDigit (Char.ofNat (48 + M)) = true
      exact pyIsDigit_ofNat (by omega)
    · rw [natToChars_two (n := M) (by omega) (by omega)]
      show (('0' ≤ Char.ofNat (48 + M / 10) && Char.ofNat (48 + M / 10) ≤ '5')
        && pyIsDigit (Char.ofNat (48 + M % 10))) = true
      rw [pyIsDigit_ofNat (d := M % 10) (by omega)]
      have hq1 : 1 ≤ M / 10 := by omega
      have hq5 : M / 10 ≤ 5 := by omega
      set q := M / 10 with hqdef
      clear_value q
      interval_cases q <;> decide
  have htake : (pad2L SS ++ '.' :: pad3L mmm).takeWhile pyIsDigit = pad2L SS :=
    takeWhile_app _ _ _ hd2 (by decide)
  have hdrop : (pad2L SS ++ '.' :: pad3L mmm).dropWhile pyIsDigit = '.' :: pad3L mmm :=
    dropWhile_app _ _ _ hd2 (by decide)
  have hsec : isSecs12 (pad2L SS ++ '.' :: pad3L mmm) = true := by
    simp only [isSecs12, htake, hdrop]
    rw [pad2L_len (by omega)]
    simp only [List.isEmpty_cons, List.headD_cons, List.drop_succ_cons, List.drop_zero]
    have hne : (pad3L mmm).isEmpty = false := by
      cases hp : pad3L mmm with
      | nil => exact absurd hp (pad3L_ne_nil hm)
      | cons a l => rfl
    have hall : (pad3L mmm).all pyIsDigit = true := List.all_eq_true.mpr hd3
    simp [hne, hall]
  have hsecval : secsVal (pad2L SS ++ '.' :: pad3L mmm)
      = ⟨((1000 * SS + mmm : ℕ) : ℤ), 3⟩ := by
    rw [secsVal, htake, hdrop]
    show Dec.add (Dec.ofNat (digitsVal (pad2L SS))) (fracVal (pad3L mmm)) = _
    rw [digitsVal_pad2L (by omega), fracVal, digitsVal_pad3L hm, pad3L_len hm]
    simp only [Dec.add, Dec.ofNat, Nat.le_zero, Nat.zero_le, if_true, Dec.mk.injEq]
    refine ⟨?_, trivial⟩
    push_cast
    ring
  unfold parse_lap_time_to_seconds
  simp only [hsplit, hmin, hsec, Bool.and_self, if_true]
  rw [digitsVal_natToChars (by omega), hsecval]
  simp only [Dec.add, Dec.ofNat, Nat.zero_le, if_true, Option.some.injEq, Dec.mk.injEq]
  refine ⟨?_, trivial⟩
  push_cast
  ring

theorem format_renderLap {M SS mmm : ℕ} (hM : M ≤ 59) (hSS : SS ≤ 59) (hm : mmm ≤ 999) :
    format_seconds_to_lap_time ⟨((60000 * M + 1000 * SS + mmm : ℕ) : ℤ), 3⟩
      = some (renderLap M SS mmm) := by
  set N : ℕ := 60000 * M + 1000 * SS + mmm with hN
  have hneg : Dec.isNeg ⟨(N : ℤ), 3⟩ = false := by
    simp [Dec.isNeg]
  have hmins : Dec.floorDivNat ⟨(N : ℤ), 3⟩ 60 = M := by
    simp only [Dec.floorDivNat, Int.toNat_natCast]
    omega
  have hms : ((((⟨(N : ℤ), 3⟩ : Dec).subNat (60 * M)).mulInt 1000).add ⟨5, 1⟩).floorDivNat 1
      = 1000 * SS + mmm := by
    norm_num [Dec.subNat, Dec.mulInt, Dec.add, Dec.floorDivNat]
    omega
  have hdiv : (1000 * SS + mmm) / 1000 = SS := by omega
  have hmod : (1000 * SS + mmm) % 1000 = mmm := by omega
  unfold format_seconds_to_lap_time
  simp only [hneg, Bool.false_eq_true, if_false, hmins, hms, hdiv, hmod]
  rfl

/-- A string fullmatching the canonical lap-time pattern has no whitespace,
so `strip` leaves it unchanged. -/
theorem strip_of_fullmatch {s : String} (h : lapTimeFullmatch s = true) : pyStrip s = s := by
  have hns : ∀ c ∈ s.data, pyIsSpace c = false := by
    unfold lapTimeFullmatch at h
    split at h
    next a b c d e f g h8 heq =>
      simp only [Bool.and_eq_true, decide_eq_true_eq] at h
      obtain ⟨⟨⟨⟨⟨⟨⟨ha, hb⟩, hc⟩, hd⟩, he⟩, hf⟩, hg⟩, hh⟩ := h
      intro x hx
      rw [heq] at hx
      simp only [List.mem_cons, List.not_mem_nil, or_false] at hx
      rcases hx with hx | hx | hx | hx | hx | hx | hx | hx
      · rw [hx]; exact digit_not_space ha
      · rw [hx, hb]; decide
      · rw [hx]; exact digit_not_space hc
      · rw [hx]; exact digit_not_space hd
      · rw [hx, he]; decide
      · rw [hx]; exact digit_not_space hf
      · rw [hx]; exact digit_not_space hg
      · rw [hx]; exact digit_not_space hh
    next a a2 b c d e f g h9 heq =>
      simp only [Bool.and_eq_true, decide_eq_true_eq] at h
      obtain ⟨⟨⟨⟨⟨⟨⟨⟨ha, ha2⟩, hb⟩, hc⟩, hd⟩, he⟩, hf⟩, hg⟩, hh⟩ := h
      intro x hx
      rw [heq] at hx
      simp only [List.mem_cons, List.not_mem_nil, or_false] at hx
      rcases hx with hx | hx | hx | hx | hx | hx | hx | hx | hx
      · rw [hx]; exact digit_not_space ha
      · rw [hx]; exact digit_not_space ha2
      · rw [hx, hb]; decide
      · rw [hx]; exact digit_not_space hc
      · rw [hx]; exact digit_not_space hd
      · rw [hx, he]; decide
      · rw [hx]; exact digit_not_space hf
      · rw [hx]; exact digit_not_space hg
      · rw [hx]; exact digit_not_space hh
    next heq => exact absurd h (by simp)
  rw [pyStrip, pyStripL_id hns]

/-- Canonical strings pass through the normalizer unchanged. -/
theorem normalize_passthrough {s : String} (h : lapTimeFullmatch s = true) :
    normalize_lap_time_str s = s := by
  unfold normalize_lap_time_str
  rw [strip_of_fullmatch h]
  simp [h]


/-- Decidable equality of embedded Python outcomes. -/
instance {e a : Type} [DecidableEq e] [DecidableEq a] : DecidableEq (Except e a) := fun x y =>
  match x, y with
  | .ok u, .ok v =>
    if h : u = v then isTrue (by rw [h]) else isFalse (by intro he; cases he; exact h rfl)
  | .error u, .error v =>
    if h : u = v then isTrue (by rw [h]) else isFalse (by intro he; cases he; exact h rfl)
  | .ok _, .error _ => isFalse (by intro he; cases he)
  | .error _, .ok _ => isFalse (by intro he; cases he)

/-! ### Concrete inputs used by counterexamples and witnesses -/

/-- A detection-positive text whose fallback tokenization contains
doubly-parenthesised content. -/
def c1rowA : PyDict := [("text", .str "Track Record ((Porsche)) 1:23.456")]

/-- A text matching the separator-delimited alternate shape with no
trailing date token. -/
def c1rowB : PyDict := [("text", .str "New Track Record Jane Smith - 1:23.456 - GT1")]

/-- A text matching the alternate shape including a trailing date token. -/
def c6row : PyDict := [("text", .str "New Track Record Joe Moss - 1:23.456 - GT1 - 2023-05-10")]

/-- A candidate whose `vehicle` equals its `lapTime` and which passes all
other validator checks. -/
def c3tr : TrackRecord :=
  { driver_name := "Jane Doe", lap_time := "1:23.456",
    track_name := some "Speed Ring", date := Option.none,
    vehicle := some "1:23.456", class_name := "GT1", extra := [] }

end Speedhive

open Speedhive

/-- C1: the spec promises a binary outcome at the parser boundary — a
structured candidate or none, never an exception.  The code breaks that
promise: on a fallback text containing `((…))` the marque scan calls
`mm.group(1)` on `_PAREN_CONTENT`, a pattern with no capturing group
(`IndexError`), and on an alternate-shape text without a trailing date the
4-group match is unpacked into five names, leaving `class_abbr = None`, so
`class_abbr.strip()` raises `AttributeError`. -/
theorem C1_parser_raises :
    parse_track_record_announcement c1rowA = .error .indexError ∧
    parse_track_record_announcement c1rowB = .error .attributeError := by
  constructor <;> decide

/-- C3 counterexample: the claimed "Marque equals lapTime (malformed
text)" rejection does not exist in `is_record_valid`; a candidate with
`vehicle` textually identical to `lapTime` and every other check passing
is accepted with `(true, null)`, not rejected. -/
theorem C3_no_marque_guard :
    c3tr.vehicle = some c3tr.lap_time ∧
    is_record_valid (some c3tr) = (true, Option.none) ∧
    is_record_valid (some c3tr) ≠ (false, some "Marque equals lapTime (malformed text)") := by
  refine ⟨by decide, by decide, by decide⟩

/-- C3 amended: `is_record_valid` has no degenerate-parse guard: every
candidate whose `vehicle` is textually identical to its `lapTime` and
which passes the four preceding checks is ACCEPTED with `(true, null)`. -/
theorem C3_vehicle_equals_laptime_accepted (tr : TrackRecord)
    (hv : tr.vehicle = some tr.lap_time)
    (h1 : lapTimeFullmatch tr.lap_time = true)
    (h2 : pyStrip tr.driver_name ≠ "")
    (h3 : blankOpt tr.track_name = false)
    (h4 : pyStrip tr.class_name ≠ "") :
    is_record_valid (some tr) = (true, Option.none) := by
  have hne : tr.lap_time ≠ "" := by
    intro he
    rw [he] at h1
    exact absurd h1 (by decide)
  simp [is_record_valid, h1, h2, h3, h4, hne]

/-- C3 amended, witness. -/
theorem C3_vehicle_equals_laptime_accepted_w :
    is_record_valid (some c3tr) = (true, Option.none) :=
  C3_vehicle_equals_laptime_accepted c3tr (by decide) (by decide) (by decide)
    (by decide) (by decide)

/-- C4: the orchestration-level acceptance policy (modelled from the spec,
see `orchestrate_accept`): a candidate rejected exactly with
"Missing classAbbreviation" is accepted with `classAbbreviation` rewritten
to the empty string; every other rejection reason is terminal. -/
theorem C4_class_exception (tr : TrackRecord) :
    (is_record_valid (some tr) = (false, some "Missing classAbbreviation") →
      orchestrate_accept tr = some { tr with class_name := "" })
  ∧ (∀ r : String, r ≠ "Missing classAbbreviation" →
      is_record_valid (some tr) = (false, some r) →
      orchestrate_accept tr = Option.none) := by
  constructor
  · intro h
    simp [orchestrate_accept, h]
  · intro r hr h
    simp [orchestrate_accept, h, hr]

/-- C4 witness: a concrete candidate failing only the class check is
accepted with the class blanked; one failing the lap-time check is
rejected terminally. -/
theorem C4_class_exception_w :
    orchestrate_accept { c3tr with class_name := " " } =
      some { c3tr with class_name := "" } :=
  (C4_class_exception { c3tr with class_name := " " }).1 (by decide)

/-- C5: negation always wins in the detection gate — any text matched by
one of the four deny-list patterns is rejected, whatever else (including a
positive keyword) it contains. -/
theorem C5_negation_wins (text : String)
    (h : ∃ p ∈ NEGATION_PATTERNS, reTest p text = true) :
    find_track_record_announcements text = false := by
  unfold find_track_record_announcements
  obtain ⟨p, hp, hmatch⟩ := h
  have hany : NEGATION_PATTERNS.any (fun p => reTest p text) = true :=
    List.any_eq_true.mpr ⟨p, hp, hmatch⟩
  simp [hany]

/-- C5 witness: a text containing both "New Track Record" and
"unofficial" is rejected by the gate. -/
theorem C5_negation_wins_w :
    find_track_record_announcements "New Track Record 1:23.456 unofficial" = false :=
  C5_negation_wins "New Track Record 1:23.456 unofficial" (by decide)

/-- C6: on an alternate-shape text with a trailing date (matched by
`ALTERNATE` and by no earlier cascade variant), the source unpacks the
4-group match into five names, shifting every field: `lap_time` receives
the class token, `class_name` the date token and `vehicle` the lap-time
token — contradicting the claimed (and comment-documented) assignment. -/
theorem C6_alternate_misassigns :
    parse_track_record_announcement c6row = .ok (some
      { driver_name := "Joe Moss", lap_time := "GT1",
        track_name := Option.none, date := Option.none,
        vehicle := some "1:23.456", class_name := "2023-05-10",
        extra := [("text", .str "New Track Record Joe Moss - 1:23.456 - GT1 - 2023-05-10"),
                  ("announcementText", .str "New Track Record Joe Moss - 1:23.456 - GT1 - 2023-05-10")] }) := by
  decide

/-- C9: the seed example — a bare-seconds lap time inside parentheses is
accepted by the announcement-text parser (`parse_track_record_text`),
yielding classification "T4", lap time "63.004" (63.004 s) and driver
"Jane Doe". -/
theorem C9_bare_seconds_example :
    parse_track_record_text "New Track Record (63.004) for T4 by Jane Doe"
      = some { classification := "T4", lap_time := "63.004",
               lap_time_seconds := some ⟨63004, 3⟩,
               driver := "Jane Doe", marque := Option.none } := by
  decide

/-- C2: the validator applies its checks in the stated order with
short-circuiting, returning exactly the stable reason strings, and
`(true, null)` when all checks pass. -/
theorem C2_validator_order (tr : Speedhive.TrackRecord) :
    (lapTimeFullmatch tr.lap_time = false →
      is_record_valid (some tr) = (false, some "Invalid lapTime"))
  ∧ (lapTimeFullmatch tr.lap_time = true → pyStrip tr.driver_name = "" →
      is_record_valid (some tr) = (false, some "Missing driverName"))
  ∧ (lapTimeFullmatch tr.lap_time = true → pyStrip tr.driver_name ≠ "" →
      blankOpt tr.track_name = true →
      is_record_valid (some tr) = (false, some "Missing trackName"))
  ∧ (lapTimeFullmatch tr.lap_time = true → pyStrip tr.driver_name ≠ "" →
      blankOpt tr.track_name = false → pyStrip tr.class_name = "" →
      is_record_valid (some tr) = (false, some "Missing classAbbreviation"))
  ∧ (lapTimeFullmatch tr.lap_time = true → pyStrip tr.driver_name ≠ "" →
      blankOpt tr.track_name = false → pyStrip tr.class_name ≠ "" →
      is_record_valid (some tr) = (true, Option.none)) := by
  have hne : lapTimeFullmatch tr.lap_time = true → tr.lap_time ≠ "" := by
    intro h he
    rw [he] at h
    exact absurd h (by decide)
  refine ⟨?_, ?_, ?_, ?_, ?_⟩
  · intro h1
    simp [is_record_valid, h1]
  · intro h1 h2
    simp [is_record_valid, h1, h2, hne h1]
  · intro h1 h2 h3
    simp [is_record_valid, h1, h2, h3, hne h1]
  · intro h1 h2 h3 h4
    simp [is_record_valid, h1, h2, h3, h4, hne h1]
  · intro h1 h2 h3 h4
    simp [is_record_valid, h1, h2, h3, h4, hne h1]

/-- C2 witness: a fully valid candidate is accepted. -/
theorem C2_validator_order_w :
    is_record_valid (some { c3tr with vehicle := Option.none }) = (true, Option.none) :=
  (C2_validator_order { c3tr with vehicle := Option.none }).2.2.2.2
    (by decide) (by decide) (by decide) (by decide)

/-- With a present maybe-date of `""` (as both misaligned separator
branches produce), `final_date` is just the metadata value. -/
theorem resolveDate_evd (evd : Option String) :
    resolveDate evd (some "") = evd := by
  simp [resolveDate, pyTruthy]

set_option maxHeartbeats 2000000 in
/-- C7: whenever the row's `eventDate` metadata is present and non-empty,
every candidate the parser returns carries exactly that date, in every
cascade branch including the fallback (branches that raise return no
candidate). -/
theorem C7_eventDate_wins (row : Speedhive.PyDict) (d : String)
    (hd : rowEventDate row = some d) (hne : d ≠ "")
    (tr : Speedhive.TrackRecord)
    (h : parse_track_record_announcement row = .ok (some tr)) :
    tr.date = some d := by
  have htr : pyTruthy (some d) = true := by simp [pyTruthy, hne]
  unfold parse_track_record_announcement at h
  simp only [hd, resolveDate_evd, htr, if_true] at h
  repeat' split at h
  all_goals try exact Except.noConfusion h
  all_goals injection h with h1
  all_goals try exact Option.noConfusion h1
  all_goals injection h1 with h2
  all_goals subst h2
  all_goals rfl

namespace Speedhive

/-- A row with `eventDate` metadata, and the candidate the parser returns
for it. -/
def c7row : PyDict :=
  [("text", .str "New Track Record (1:17.870) for IT7 by Bob Cross."),
   ("trackName", .str "Summit Point"), ("eventDate", .str "2009-05-10")]

def c7tr : TrackRecord :=
  { driver_name := "Bob Cross", lap_time := "1:17.870",
    track_name := some "Summit Point", date := some "2009-05-10",
    vehicle := Option.none, class_name := "IT7",
    extra := pyDictSet c7row "announcementText"
      (.str "New Track Record (1:17.870) for IT7 by Bob Cross.") }

end Speedhive

/-- C7 witness: on a concrete row carrying `eventDate = 2009-05-10`, the
returned candidate's date is that value. -/
theorem C7_eventDate_wins_w : c7tr.date = some "2009-05-10" :=
  C7_eventDate_wins c7row "2009-05-10" (by decide) (by decide) c7tr (by decide)

set_option maxHeartbeats 2000000 in
/-- Every candidate the parser returns carries, as its provenance `extra`,
the copy-with-one-key-set of the caller's row (the value of
`{**row, "announcementText": raw}`). -/
theorem parse_extra_is_copy (row : Speedhive.PyDict) (tr : Speedhive.TrackRecord)
    (h : parse_track_record_announcement row = .ok (some tr)) :
    tr.extra = pyDictSet row "announcementText"
      (.str (normalizeWs (get_announcement_text row))) := by
  simp only [parse_track_record_announcement] at h
  repeat' split at h
  all_goals try exact Except.noConfusion h
  all_goals injection h with h1
  all_goals try exact Option.noConfusion h1
  all_goals injection h1 with h2
  all_goals subst h2
  all_goals rfl

/-- C10: at the heap level, parsing leaves every pre-existing object —
in particular the caller's row — untouched, and the returned candidate's
`extra` is a fresh object (a new address, distinct from the row's) whose
content is the row's bindings plus the normalized announcement text. -/
theorem C10_row_not_mutated (h : Speedhive.Heap) (next rowRef : Nat)
    (row : Speedhive.PyDict)
    (hrow : h rowRef = some row) (hlt : rowRef < next) :
    (∀ r, r < next → (parse_track_record_announcement_heap h next rowRef).1 r = h r)
  ∧ (∀ tr : Speedhive.TrackRecordRef,
      (parse_track_record_announcement_heap h next rowRef).2.2 = .ok (some tr) →
      tr.extraRef ≠ rowRef ∧
      (parse_track_record_announcement_heap h next rowRef).1 tr.extraRef =
        some (pyDictSet row "announcementText"
          (.str (normalizeWs (get_announcement_text row))))) := by
  unfold parse_track_record_announcement_heap
  simp only [hrow]
  rcases hp : parse_track_record_announcement row with e | o
  · simp only [hp]
    simp
  · cases o with
    | none =>
      simp only [hp]
      simp
    | some tr0 =>
      simp only [hp]
      refine ⟨fun r hr => ?_, fun tr htr => ?_⟩
      · have hrne : r ≠ next := Nat.ne_of_lt hr
        simp [hrne]
      · injection htr with h1
        injection h1 with h2
        subst h2
        have hnr : next ≠ rowRef := (Nat.ne_of_lt hlt).symm
        refine ⟨hnr, ?_⟩
        simp [parse_extra_is_copy row tr0 hp]

namespace Speedhive

/-- A concrete one-object heap for the C10 witness. -/
def c10row : PyDict :=
  [("text", .str "New Track Record (1:09.550) for FA by Max Verst."),
   ("trackName", .str "Ring")]

def c10heap : Heap := fun r => if r = 0 then some c10row else Option.none

end Speedhive

/-- C10 witness: on the concrete heap, the row's binding is unchanged by
the call. -/
theorem C10_row_not_mutated_w :
    (parse_track_record_announcement_heap c10heap 1 0).1 0 = c10heap 0 :=
  (C10_row_not_mutated c10heap 1 0 c10row rfl (by decide)).1 0 (by decide)

/-- C8 counterexample: the canonical pattern `\d{1,2}:\d{2}\.\d{3}` admits
zero-padded minutes and seconds ≥ 60, and the round trip changes both:
"01:02.003" comes back as "1:02.003" and "1:99.999" as "2:39.999". -/
theorem C8_canonical_roundtrip_fails :
    lapTimeFullmatch "01:02.003" = true ∧
    (parse_lap_time_to_seconds "01:02.003").bind format_seconds_to_lap_time
      = some "1:02.003" ∧
    some ("1:02.003" : String) ≠ some ("01:02.003" : String) ∧
    lapTimeFullmatch "1:99.999" = true ∧
    (parse_lap_time_to_seconds "1:99.999").bind format_seconds_to_lap_time
      = some "2:39.999" ∧
    some ("2:39.999" : String) ≠ some ("1:99.999" : String) := by
  refine ⟨by decide, by decide, by decide, by decide, by decide, by decide⟩

/-- C8 amended: every canonical string passes through
`_normalize_lap_time_str` unchanged, and the seconds round trip
re-renders exactly those canonical times whose minutes field is written
without a leading zero with value ≤ 59 (the range the denormalizer's
`[0-5]?\d` accepts) and whose seconds field is below 60. -/
theorem C8_roundtrip_amended :
    (∀ s : String, lapTimeFullmatch s = true → normalize_lap_time_str s = s)
  ∧ (∀ M SS mmm : ℕ, M ≤ 59 → SS ≤ 59 → mmm ≤ 999 →
      (parse_lap_time_to_seconds (renderLap M SS mmm)).bind format_seconds_to_lap_time
        = some (renderLap M SS mmm)) := by
  constructor
  · exact fun s h => normalize_passthrough h
  · intro M SS mmm hM hSS hm
    rw [parse_renderLap hM hSS hm]
    exact format_renderLap hM hSS hm

/-- C8 amended, witness: concrete pass-through and a concrete round trip
(`"1:02.003"` = `renderLap 1 2 3`). -/
theorem C8_roundtrip_amended_w :
    normalize_lap_time_str "1:02.003" = "1:02.003" ∧
    (parse_lap_time_to_seconds (renderLap 1 2 3)).bind format_seconds_to_lap_time
      = some (renderLap 1 2 3) :=
  ⟨C8_roundtrip_amended.1 "1:02.003" (by decide),
   C8_roundtrip_amended.2 1 2 3 (by decide) (by decide) (by decide)⟩
